import Mathlib

/-!
Shallow embedding of the DocsBotGP chat application's retrieval-ranking,
conversation-context-management and caching logic, translated from
`app/lib/agent.ts` and `app/api/chat/route.ts`.

JavaScript regular-expression tests used by the code are modelled as follows:
the escape-pattern `DOCS_CONTEXT_ESCAPE_PATTERN` (a case-insensitive
alternation of literal phrases, with no anchors or word boundaries) is
implemented concretely as a case-insensitive substring test; the remaining
patterns (`REALEX_PATTERN`, `GLOBAL_PAYMENTS_PATTERN`,
`COMPARISON_OR_TRADEOFF_PATTERN`, `MULTI_PART_PATTERN`,
`FOLLOW_UP_INDICATOR_PATTERN`, `AMBIGUOUS_FOLLOW_UP_PRONOUN_PATTERN`) appear
only as opaque Boolean tests in the claims, so the development is
parametrised over them through the `PatternTests` structure.  Numeric scores
(JavaScript numbers) are modelled as rationals, and wall-clock times
(`Date.now()` milliseconds) as integers.
-/

namespace DocsBot

/-- Substring containment on character lists: `containsSub pat s` is true when
`pat` occurs contiguously inside `s`.  Used to model regex alternations of
literal phrases and JavaScript's `String.prototype.includes`. -/
def containsSub (pat : List Char) : List Char → Bool
  | [] => pat.isPrefixOf []
  | c :: rest => pat.isPrefixOf (c :: rest) || containsSub pat rest

/-- Case-sensitive substring test on strings, modelling
`haystack.includes(sub)`. -/
def includesSub (hay sub : String) : Bool :=
  containsSub sub.data hay.data

/-- Case-insensitive substring test on strings, modelling a case-insensitive
regex search for a literal phrase (ASCII case folding, which is what the
phrases involved use). -/
def containsCI (hay pat : String) : Bool :=
  containsSub (pat.data.map Char.toLower) (hay.data.map Char.toLower)

/-- Structural model of JavaScript's `String.prototype.trim` (and of Lean's
`String.trim`): drop whitespace from both ends. -/
def jsTrim (s : String) : String :=
  ⟨((s.data.dropWhile Char.isWhitespace).reverse.dropWhile Char.isWhitespace).reverse⟩

/-- Fixed no-match message `DOCS_ONLY_NO_MATCH_MESSAGE` from `agent.ts`. -/
def DOCS_ONLY_NO_MATCH_MESSAGE : String :=
  "I couldn't verify that in the Global Payments documentation. Please rephrase your question or contact Global Payments support."

/-- Fixed unavailable message `DOCS_ONLY_UNAVAILABLE_MESSAGE` from `agent.ts`. -/
def DOCS_ONLY_UNAVAILABLE_MESSAGE : String :=
  "I couldn't access the Global Payments documentation right now, so I can't provide a verified answer. Please try again in a moment."

/-- Generic error response produced by the agent's outer catch block. -/
def AGENT_ERROR_MESSAGE : String :=
  "I'm sorry, I encountered an error while processing your request. Please try again."

/-- Score threshold `MIN_CONTEXT_SCORE = 0.55` from `agent.ts`, written with
`mkRat` so that the kernel can evaluate it; `MIN_CONTEXT_SCORE_eq` below
proves it equal to the decimal literal. -/
def MIN_CONTEXT_SCORE : ℚ := mkRat 55 100

/-- Literal phrases of `DOCS_CONTEXT_ESCAPE_PATTERN`; the two alternatives
with an optional "the " group are expanded into both variants. -/
def DOCS_CONTEXT_ESCAPE_PHRASES : List String :=
  ["say so and i can switch",
   "i can switch out of the documentation context",
   "i can switch out of documentation context",
   "switch out of the documentation context",
   "switch out of documentation context",
   "talk about that instead",
   "general or fun/abstract sense",
   "not related to global payments"]

/-- Concrete model of `DOCS_CONTEXT_ESCAPE_PATTERN.test`: the pattern is a
case-insensitive alternation of literal phrases with no anchors, so it
matches exactly when one of the phrases occurs as a substring,
case-insensitively. -/
def docsContextEscapeTest (s : String) : Bool :=
  DOCS_CONTEXT_ESCAPE_PHRASES.any (fun p => containsCI s p)

/-- Translation of `enforceDocsOnlyBoundary` from `agent.ts`. -/
def enforceDocsOnlyBoundary (responseText : String) : String :=
  if jsTrim responseText = ("") then DOCS_ONLY_NO_MATCH_MESSAGE
  else if docsContextEscapeTest responseText then DOCS_ONLY_NO_MATCH_MESSAGE
  else responseText

/-- Opaque Boolean models of the remaining regular-expression tests of
`agent.ts`; each field stands for `PATTERN.test` of the corresponding
constant. -/
structure PatternTests where
  realex : String → Bool
  globalPayments : String → Bool
  comparison : String → Bool
  multiPart : String → Bool
  followUp : String → Bool
  pronoun : String → Bool

/-- Search result shape from `agent.ts` (`SearchResult`). -/
structure SearchResult where
  content : String
  source : String
  score : ℚ
deriving DecidableEq

/-- A search result after brand-affinity annotation inside
`runGlobalPaymentsDocsAgent`'s re-ranking map. -/
structure RankedResult where
  content : String
  source : String
  score : ℚ
  adjustedScore : ℚ
  mentionsRealex : Bool
  mentionsGlobalPayments : Bool
deriving DecidableEq

/-- Translation of `classifyResultBrandAffinity`: tests the Realex and
Global Payments patterns against the source and content joined by a
newline.  First component is `mentionsRealex`, second is
`mentionsGlobalPayments`. -/
def classifyResultBrandAffinity (P : PatternTests) (result : SearchResult) : Bool × Bool :=
  let haystack := result.source ++ ("\n") ++ result.content
  (P.realex haystack, P.globalPayments haystack)

/-- Translation of `referencesRealex` from `agent.ts`. -/
def referencesRealex (P : PatternTests) (text : String) : Bool :=
  P.realex text

/-- Body of the re-ranking `map` in `runGlobalPaymentsDocsAgent`
(agent.ts lines 291-316): computes the adjusted score from the brand
classification.  The multipliers 2.2, 0.15 and 0.8 of the source are
written with `mkRat` so that the kernel can evaluate them; the lemmas
`boost_factor_eq`, `realex_penalty_eq` and `both_penalty_eq` below prove
them equal to the decimal literals. -/
def annotateResult (P : PatternTests) (result : SearchResult) : RankedResult :=
  let mentionsRealex := (classifyResultBrandAffinity P result).1
  let mentionsGlobalPayments := (classifyResultBrandAffinity P result).2
  let a1 : ℚ := if mentionsGlobalPayments then result.score * mkRat 22 10 else result.score
  let a2 : ℚ := if mentionsRealex && !mentionsGlobalPayments then a1 * mkRat 15 100 else a1
  let a3 : ℚ := if mentionsRealex && mentionsGlobalPayments then a2 * mkRat 8 10 else a2
  { content := result.content, source := result.source, score := result.score,
    adjustedScore := a3, mentionsRealex := mentionsRealex,
    mentionsGlobalPayments := mentionsGlobalPayments }

/-- Descending order used to model
`.sort((a, b) => b.adjustedScore - a.adjustedScore)`. -/
def scoreDesc (a b : RankedResult) : Prop :=
  b.adjustedScore ≤ a.adjustedScore

instance : DecidableRel scoreDesc := fun a b =>
  inferInstanceAs (Decidable (b.adjustedScore ≤ a.adjustedScore))

/-- The `rankedCandidates` pipeline of `runGlobalPaymentsDocsAgent`:
annotate, sort by adjusted score descending, then keep scores strictly
above `MIN_CONTEXT_SCORE`.  JavaScript's `Array.prototype.sort` is required
to produce a stable sorted permutation, which is exactly what the stable
`List.insertionSort` produces. -/
def rankedCandidates (P : PatternTests) (results : List SearchResult) : List RankedResult :=
  ((results.map (annotateResult P)).insertionSort scoreDesc).filter
    (fun r => decide (MIN_CONTEXT_SCORE < r.adjustedScore))

/-- The `preferredCandidates` filter: keep everything when the user asked
about Realex, otherwise exclude Realex-only chunks. -/
def preferredCandidates (userAskedForRealex : Bool) (ranked : List RankedResult) :
    List RankedResult :=
  ranked.filter (fun r => userAskedForRealex || (!r.mentionsRealex || r.mentionsGlobalPayments))

/-- The `selectedCandidates` expression: preferred candidates when any exist,
else the full ranked list when the user asked about Realex, else nothing;
then take the first three. -/
def selectedCandidates (userAskedForRealex : Bool) (ranked : List RankedResult) :
    List RankedResult :=
  (if 0 < (preferredCandidates userAskedForRealex ranked).length then
      preferredCandidates userAskedForRealex ranked
    else if userAskedForRealex then ranked else []).take 3

/-- End-to-end context selection of `runGlobalPaymentsDocsAgent`:
`userAskedForRealex` is `referencesRealex(input)` on the raw input. -/
def selectContext (P : PatternTests) (input : String) (results : List SearchResult) :
    List RankedResult :=
  selectedCandidates (referencesRealex P input) (rankedCandidates P results)

/-- The `highConfidenceResults` projection back to plain search results. -/
def highConfidenceResults (P : PatternTests) (input : String) (results : List SearchResult) :
    List SearchResult :=
  (selectContext P input results).map
    (fun r => { content := r.content, source := r.source, score := r.score })

/-- Reasoning-effort label (`type ReasoningEffort = 'low' | 'medium'`). -/
inductive ReasoningEffort where
  | low
  | medium
deriving DecidableEq

/-- Message role in the conversation history. -/
inductive Role where
  | user
  | assistant
deriving DecidableEq

/-- Conversation message (`ConversationMessage` in `agent.ts`). -/
structure ConversationMessage where
  role : Role
  content : String
deriving DecidableEq

/-- Return shape of `determineReasoningEffort`. -/
structure EffortDecision where
  primaryEffort : ReasoningEffort
  retryEfforts : List ReasoningEffort
  reasons : List String
deriving DecidableEq

/-- The reasons list accumulated by `determineReasoningEffort` for a
non-empty trimmed input (`agent.ts` lines 225-244):
`history.filter(user).slice(-4)` is modelled by dropping all but the last
four user messages. -/
def effortReasons (P : PatternTests) (trimmedInput : String)
    (history : List ConversationMessage) : List String :=
  let reasons1 : List String :=
    if P.comparison trimmedInput then [("comparison_or_tradeoff")] else []
  let reasons2 : List String :=
    reasons1 ++ (if P.multiPart trimmedInput then [("multi_part_question")] else [])
  let looksLikeFollowUp : Bool :=
    decide (trimmedInput.length ≤ 40) || P.followUp trimmedInput
  let userTurns := history.filter (fun m => decide (m.role = Role.user))
  let recentUserTurns := userTurns.drop (userTurns.length - 4)
  reasons2 ++
    (if looksLikeFollowUp && P.pronoun trimmedInput &&
        decide (2 ≤ recentUserTurns.length)
     then [("follow_up_ambiguity")] else [])

/-- Translation of `determineReasoningEffort` from `agent.ts`
(lines 213-259): empty trimmed input defaults to low effort; any recorded
reason escalates the primary effort to medium with no retry, otherwise the
primary effort is low with a medium retry. -/
def determineReasoningEffort (P : PatternTests) (input : String)
    (history : List ConversationMessage) : EffortDecision :=
  if jsTrim input = ("") then
    { primaryEffort := .low, retryEfforts := [.low, .medium], reasons := [] }
  else if 0 < (effortReasons P (jsTrim input) history).length then
    { primaryEffort := .medium, retryEfforts := [.medium],
      reasons := effortReasons P (jsTrim input) history }
  else
    { primaryEffort := .low, retryEfforts := [.low, .medium],
      reasons := effortReasons P (jsTrim input) history }

/-- Message-count budget `MAX_CONTEXT_MESSAGES` from `route.ts`. -/
def MAX_CONTEXT_MESSAGES : Nat := 12

/-- Character budget `MAX_CONTEXT_CHARS` from `route.ts`. -/
def MAX_CONTEXT_CHARS : Nat := 8000

/-- Total character count of a list of messages. -/
def charSum (messages : List ConversationMessage) : Nat :=
  (messages.map (fun m => m.content.length)).sum

/-- The conversation over which `buildContextWindow` runs: the history with
the trimmed latest user message appended unless it is already the final
entry (`route.ts` lines 69-83). -/
def buildConversation (history : List ConversationMessage) (latestUserMessage : String) :
    List ConversationMessage :=
  let trimmedLatestMessage := jsTrim latestUserMessage
  let latestAlreadyIncluded : Bool :=
    match history.getLast? with
    | some lastMessage =>
        decide (lastMessage.role = Role.user) && decide (lastMessage.content = trimmedLatestMessage)
    | none => false
  if latestAlreadyIncluded = false ∧ trimmedLatestMessage ≠ ("") then
    history ++ [{ role := Role.user, content := trimmedLatestMessage }]
  else history

/-- The backward greedy selection loop of `buildContextWindow` (`route.ts`
lines 88-101).  The first argument is the still-unprocessed part of the
reversed conversation (newest first); messages are consed onto the selected
list, so the selected list is kept in chronological order, matching the
`push`-then-`reverse` of the code. -/
def selectBack : List ConversationMessage → List ConversationMessage → Nat →
    List ConversationMessage × Nat
  | [], selected, totalChars => (selected, totalChars)
  | m :: rest, selected, totalChars =>
    if MAX_CONTEXT_MESSAGES ≤ selected.length ∨
        (0 < selected.length ∧ MAX_CONTEXT_CHARS < totalChars + m.content.length) then
      (selected, totalChars)
    else
      selectBack rest (m :: selected) (totalChars + m.content.length)

/-- Return shape of `buildContextWindow` (`ContextWindowResult`). -/
structure ContextWindowResult where
  messages : List ConversationMessage
  totalMessages : Nat
  totalChars : Nat
  truncated : Bool
deriving DecidableEq

/-- Translation of `buildContextWindow` from `route.ts` (lines 68-119),
including the fallback that reinstates the latest message when the loop
selected nothing. -/
def buildContextWindow (history : List ConversationMessage) (latestUserMessage : String) :
    ContextWindowResult :=
  let conversation := buildConversation history latestUserMessage
  let trimmedLatestMessage := jsTrim latestUserMessage
  let picked := selectBack conversation.reverse [] 0
  if picked.1.length = 0 ∧ trimmedLatestMessage ≠ ("") then
    { messages := [{ role := Role.user, content := trimmedLatestMessage }],
      totalMessages := conversation.length,
      totalChars := trimmedLatestMessage.length,
      truncated := decide (1 < conversation.length) }
  else
    { messages := picked.1,
      totalMessages := conversation.length,
      totalChars := picked.2,
      truncated := decide (picked.1.length < conversation.length) }

/-- Outcome of the generation attempt loop: a successful response text with
the reasoning effort that produced it, or a propagated error.
`failure none` models the synthetic "Model response was empty after
retries" error thrown when the loop ends with no response and no recorded
model error. -/
inductive GenOutcome (E : Type) where
  | success (text : String) (effort : ReasoningEffort)
  | failure (err : Option E)
deriving DecidableEq

/-- One-step-indexed translation of the attempt loop of
`runGlobalPaymentsDocsAgent` (`agent.ts` lines 398-454).  `oracle i` is the
outcome of the i-th `openai.responses.create` generation call (its raw
`output_text`, or a thrown error); the second component of the result
counts the generation calls made.  `total` is `retryEfforts.length` and
`hasContext` is `highConfidenceResults.length > 0`. -/
def runAttemptsAux {E : Type} (oracle : Nat → Except E String) (hasContext : Bool)
    (total : Nat) : List ReasoningEffort → Nat → Option E → GenOutcome E × Nat
  | [], _, lastModelError => (.failure lastModelError, 0)
  | eff :: rest, i, lastModelError =>
    match oracle i with
    | .ok raw =>
      let attemptText := enforceDocsOnlyBoundary raw
      if i = 0 ∧ eff = ReasoningEffort.low ∧ attemptText = DOCS_ONLY_NO_MATCH_MESSAGE ∧
          hasContext = true then
        let next := runAttemptsAux oracle hasContext total rest (i + 1) lastModelError
        (next.1, next.2 + 1)
      else
        (.success attemptText eff, 1)
    | .error e =>
      if i = 0 ∧ eff = ReasoningEffort.low ∧ 1 < total then
        let next := runAttemptsAux oracle hasContext total rest (i + 1) (some e)
        (next.1, next.2 + 1)
      else
        (.failure (some e), 1)

/-- The attempt loop, started at attempt index 0 with no recorded error. -/
def runAttempts {E : Type} (efforts : List ReasoningEffort)
    (oracle : Nat → Except E String) (hasContext : Bool) : GenOutcome E × Nat :=
  runAttemptsAux oracle hasContext efforts.length efforts 0 none

/-- Outcome of the second (medium-effort) generation attempt, as the loop
treats it: at attempt index 1 the success branch always returns and the
error branch always rethrows. -/
def mediumRetryOutcome {E : Type} (oracle : Nat → Except E String) : GenOutcome E :=
  match oracle 1 with
  | .ok raw => .success (enforceDocsOnlyBoundary raw) ReasoningEffort.medium
  | .error e => .failure (some e)

/-- Error shape attached to a documentation search response. -/
structure SearchError where
  type : String
  message : String
deriving DecidableEq

/-- Return shape of `searchDocumentation`
(`DocumentationSearchResponse`). -/
structure DocumentationSearchResponse where
  results : List SearchResult
  error : Option SearchError
deriving DecidableEq

/-- Observable outcome of `runGlobalPaymentsDocsAgent`: the response text,
the `metadata.context` list (empty when the object carries no metadata, as
in the outer catch), and whether the outer catch produced the result. -/
structure AgentResult where
  response : String
  contextMeta : List SearchResult
  isError : Bool
deriving DecidableEq

/-- Translation of `runGlobalPaymentsDocsAgent` after the search call
(`agent.ts` lines 277-487), abstracted over the search response and the
generation oracle.  The second component counts generation calls: zero on
the early no-context return, otherwise the attempt-loop count.  The
success path appends the vector-search note when the error message is not
already included, as the code does. -/
def runAgentModel (P : PatternTests) {E : Type} (input : String)
    (history : List ConversationMessage)
    (docSearchResponse : DocumentationSearchResponse)
    (oracle : Nat → Except E String) : AgentResult × Nat :=
  let highConfidence := highConfidenceResults P input docSearchResponse.results
  if highConfidence.length = 0 then
    let response :=
      match docSearchResponse.error with
      | some err =>
          if err.type = ("VectorSearchError") then DOCS_ONLY_UNAVAILABLE_MESSAGE
          else DOCS_ONLY_NO_MATCH_MESSAGE
      | none => DOCS_ONLY_NO_MATCH_MESSAGE
    ({ response := response, contextMeta := [], isError := false }, 0)
  else
    let decision := determineReasoningEffort P input history
    let run := runAttempts decision.retryEfforts oracle (decide (0 < highConfidence.length))
    match run.1 with
    | .success text _ =>
        let finalText :=
          match docSearchResponse.error with
          | some err =>
              if includesSub text err.message then text
              else text ++ ("\n\n(Note: ") ++ err.message ++ (")")
          | none => text
        ({ response := finalText, contextMeta := docSearchResponse.results,
           isError := false }, run.2)
    | .failure _ =>
        ({ response := AGENT_ERROR_MESSAGE, contextMeta := [], isError := true },
         run.2)

/-- Total outbound provider calls made by one non-cached chat request: one
`openai.responses.create` inside `searchDocumentation` plus the generation
attempts. -/
def agentOutboundCalls (P : PatternTests) {E : Type} (input : String)
    (history : List ConversationMessage)
    (docSearchResponse : DocumentationSearchResponse)
    (oracle : Nat → Except E String) : Nat :=
  1 + (runAgentModel P input history docSearchResponse oracle).2

/-- Outbound provider calls of one request handled by `POST` in `route.ts`:
a cache hit returns the stored response without invoking the agent. -/
def requestOutboundCalls (P : PatternTests) {E : Type} (cacheHit : Bool) (input : String)
    (history : List ConversationMessage)
    (docSearchResponse : DocumentationSearchResponse)
    (oracle : Nat → Except E String) : Nat :=
  if cacheHit then 0 else agentOutboundCalls P input history docSearchResponse oracle

/-- Cache TTL `CACHE_TTL` from `route.ts` (one hour in milliseconds). -/
def CACHE_TTL : Int := 1000 * 60 * 60

/-- A cache entry as stored by `POST`: the cached payload (abstracted to its
response text) and the wall-clock timestamp at which it was stored. -/
structure CacheEntry where
  response : String
  timestamp : Int
deriving DecidableEq

/-- Deletion of a key from the cache (`responseCache.delete(cacheKey)`). -/
def cacheDelete (cache : List (String × CacheEntry)) (key : String) :
    List (String × CacheEntry) :=
  cache.filter (fun kv => !(kv.1 == key))

/-- Decision taken by the cache-check section of `POST`. -/
inductive CacheDecision where
  | serveCached (entry : CacheEntry)
  | recompute
deriving DecidableEq

/-- Translation of the cache-check section of `POST` (`route.ts` lines
152-169): a fresh entry is served; a stale entry is deleted and the
response recomputed; a missing key recomputes. -/
def cacheLookupStep (cache : List (String × CacheEntry)) (key : String) (now : Int) :
    CacheDecision × List (String × CacheEntry) :=
  match List.lookup key cache with
  | some cachedData =>
      if now - cachedData.timestamp < CACHE_TTL then (.serveCached cachedData, cache)
      else (.recompute, cacheDelete cache key)
  | none => (.recompute, cache)

/-- Pattern assignment whose tests all answer `false`, used as concrete
instantiation in witnesses. -/
def allFalseTests : PatternTests :=
  { realex := fun _ => false, globalPayments := fun _ => false,
    comparison := fun _ => false, multiPart := fun _ => false,
    followUp := fun _ => false, pronoun := fun _ => false }

/-- A concrete search result used in witnesses. -/
def sampleResult : SearchResult :=
  { content := "refund doc", source := "guide.md", score := mkRat 9 10 }

/-!
Theorems.  Each claim theorem carries the claim id in its doc comment;
helper lemmas are shared.
-/

/-- Sanity: the threshold constant written with `mkRat` is the source's
literal 0.55. -/
theorem MIN_CONTEXT_SCORE_eq : MIN_CONTEXT_SCORE = 0.55 := by
  unfold MIN_CONTEXT_SCORE; norm_num

/-- Sanity: the Global Payments boost factor is the source's literal 2.2. -/
theorem boost_factor_eq : (mkRat 22 10 : ℚ) = 2.2 := by norm_num

/-- Sanity: the Realex-only penalty factor is the source's literal 0.15. -/
theorem realex_penalty_eq : (mkRat 15 100 : ℚ) = 0.15 := by norm_num

/-- Sanity: the both-brands penalty factor is the source's literal 0.8. -/
theorem both_penalty_eq : (mkRat 8 10 : ℚ) = 0.8 := by norm_num

/-- C1: the brand-affinity re-ranking multiplies the original score by 2.2
when the source-plus-content text matches the Global Payments pattern, by
0.15 when it matches the Realex pattern without the Global Payments
pattern, and by 0.8 when it matches both (the factors compose, so a result
matching both ends at 2.2 times 0.8 times the score); a result matching
neither pattern keeps its original score unchanged. -/
theorem adjustedScore_brand_formula (P : PatternTests) (result : SearchResult) :
    (annotateResult P result).adjustedScore =
      result.score *
        (if (classifyResultBrandAffinity P result).2 = true then (2.2 : ℚ) else 1) *
        (if (classifyResultBrandAffinity P result).1 = true ∧
            (classifyResultBrandAffinity P result).2 = false then (0.15 : ℚ) else 1) *
        (if (classifyResultBrandAffinity P result).1 = true ∧
            (classifyResultBrandAffinity P result).2 = true then (0.8 : ℚ) else 1) ∧
    ((classifyResultBrandAffinity P result).1 = false ∧
        (classifyResultBrandAffinity P result).2 = false →
      (annotateResult P result).adjustedScore = result.score) := by
  unfold annotateResult
  rcases h1 : (classifyResultBrandAffinity P result).1 <;>
    rcases h2 : (classifyResultBrandAffinity P result).2 <;>
    simp [h1, h2] <;> norm_num

/-- Witness for C1 at a concrete result matching neither pattern. -/
theorem adjustedScore_brand_formula_witness :
    (classifyResultBrandAffinity allFalseTests sampleResult).1 = false ∧
    (classifyResultBrandAffinity allFalseTests sampleResult).2 = false ∧
    (annotateResult allFalseTests sampleResult).adjustedScore = sampleResult.score :=
  ⟨by decide, by decide,
    (adjustedScore_brand_formula allFalseTests sampleResult).2 ⟨by decide, by decide⟩⟩

/-- Counterexample for C5: on the fixed no-match message itself the
function returns the fixed no-match message even though the input is
neither empty nor whitespace-only nor a match of the escape pattern, so
"returns the fixed no-match message exactly when ..." fails in the
only-if direction. -/
theorem enforce_no_match_not_only_if :
    enforceDocsOnlyBoundary DOCS_ONLY_NO_MATCH_MESSAGE = DOCS_ONLY_NO_MATCH_MESSAGE ∧
    ¬ (jsTrim DOCS_ONLY_NO_MATCH_MESSAGE = ("") ∨
        docsContextEscapeTest DOCS_ONLY_NO_MATCH_MESSAGE = true) := by
  constructor
  · decide
  · decide

/-- C5 (amended): `enforceDocsOnlyBoundary` returns the fixed no-match
message when the output trims to empty or matches the escape pattern, and
returns every other output unchanged; consequently its result equals the
no-match message exactly when the output is empty or whitespace-only,
matches the escape pattern, or already equals the no-match message. -/
theorem enforceDocsOnlyBoundary_spec (s : String) :
    (enforceDocsOnlyBoundary s = DOCS_ONLY_NO_MATCH_MESSAGE ↔
      jsTrim s = ("") ∨ docsContextEscapeTest s = true ∨ s = DOCS_ONLY_NO_MATCH_MESSAGE) ∧
    (¬ (jsTrim s = ("") ∨ docsContextEscapeTest s = true) → enforceDocsOnlyBoundary s = s) := by
  unfold enforceDocsOnlyBoundary
  by_cases h1 : jsTrim s = ("")
  · simp [h1]
  · by_cases h2 : docsContextEscapeTest s
    · simp [h1, h2]
    · simp [h1, h2]

/-- Witness for C5 at a concrete untouched output. -/
theorem enforceDocsOnlyBoundary_spec_witness :
    ¬ (jsTrim ("Hello") = ("") ∨ docsContextEscapeTest ("Hello") = true) ∧
    enforceDocsOnlyBoundary ("Hello") = ("Hello") :=
  ⟨by decide, (enforceDocsOnlyBoundary_spec ("Hello")).2 (by decide)⟩

/-- Every selected candidate comes from the ranked candidate list. -/
theorem mem_selectedCandidates (u : Bool) (ranked : List RankedResult) :
    ∀ r ∈ selectedCandidates u ranked, r ∈ ranked := by
  intro r hr
  unfold selectedCandidates at hr
  have hr' := List.mem_of_mem_take hr
  by_cases hp : 0 < (preferredCandidates u ranked).length
  · rw [if_pos hp] at hr'
    unfold preferredCandidates at hr'
    exact (List.mem_filter.mp hr').1
  · rw [if_neg hp] at hr'
    rcases u with _ | _
    · simp at hr'
    · simpa using hr'

/-- Every ranked candidate clears the threshold (it survived the filter). -/
theorem mem_rankedCandidates_threshold (P : PatternTests) (results : List SearchResult) :
    ∀ r ∈ rankedCandidates P results, MIN_CONTEXT_SCORE < r.adjustedScore := by
  intro r hr
  unfold rankedCandidates at hr
  exact of_decide_eq_true (List.mem_filter.mp hr).2

instance : IsTotal RankedResult scoreDesc :=
  ⟨fun a b => le_total b.adjustedScore a.adjustedScore⟩

instance : IsTrans RankedResult scoreDesc :=
  ⟨fun _ _ _ hab hbc => le_trans hbc hab⟩

/-- The ranked candidate list is in non-increasing adjusted-score order:
sorting precedes the threshold filter, which preserves order. -/
theorem rankedCandidates_pairwise (P : PatternTests) (results : List SearchResult) :
    (rankedCandidates P results).Pairwise scoreDesc := by
  unfold rankedCandidates
  exact (List.sorted_insertionSort scoreDesc _).filter _

/-- The selection retains the ranked order: it is a take of a filter (or of
the ranked list itself). -/
theorem selectedCandidates_pairwise (u : Bool) (ranked : List RankedResult)
    (h : ranked.Pairwise scoreDesc) :
    (selectedCandidates u ranked).Pairwise scoreDesc := by
  unfold selectedCandidates
  refine List.Pairwise.sublist (List.take_sublist _ _) ?_
  by_cases hp : 0 < (preferredCandidates u ranked).length
  · rw [if_pos hp]
    unfold preferredCandidates
    exact h.filter _
  · rw [if_neg hp]
    rcases u with _ | _
    · simp
    · simpa using h

/-- C4: the context selected for the generation prompt holds at most three
results, every selected result's adjusted score strictly exceeds the fixed
threshold `MIN_CONTEXT_SCORE`, and the selected results appear in
non-increasing adjusted-score order. -/
theorem selectContext_top3_threshold_sorted (P : PatternTests) (input : String)
    (results : List SearchResult) :
    (selectContext P input results).length ≤ 3 ∧
    (highConfidenceResults P input results).length ≤ 3 ∧
    (∀ r ∈ selectContext P input results, MIN_CONTEXT_SCORE < r.adjustedScore) ∧
    (selectContext P input results).Pairwise
      (fun a b => b.adjustedScore ≤ a.adjustedScore) := by
  refine ⟨?_, ?_, ?_, ?_⟩
  · unfold selectContext selectedCandidates
    exact List.length_take_le _ _
  · unfold highConfidenceResults
    rw [List.length_map]
    unfold selectContext selectedCandidates
    exact List.length_take_le _ _
  · intro r hr
    exact mem_rankedCandidates_threshold P results r
      (mem_selectedCandidates _ _ r hr)
  · exact selectedCandidates_pairwise _ _ (rankedCandidates_pairwise P results)

/-- Witness for C4 at a concrete result list. -/
theorem selectContext_top3_threshold_sorted_witness :
    (selectContext allFalseTests ("What is a refund?") [sampleResult]).length ≤ 3 ∧
    MIN_CONTEXT_SCORE <
      (annotateResult allFalseTests sampleResult).adjustedScore ∧
    (∀ r ∈ selectContext allFalseTests ("What is a refund?") [sampleResult],
      MIN_CONTEXT_SCORE < r.adjustedScore) :=
  ⟨(selectContext_top3_threshold_sorted allFalseTests ("What is a refund?") [sampleResult]).1,
    by decide,
    (selectContext_top3_threshold_sorted allFalseTests ("What is a refund?") [sampleResult]).2.2.1⟩

/-- C9: when the user input does not match the Realex pattern, every result
selected into the generation context either does not mention Realex or also
mentions Global Payments, and when no such candidate survives the selection
is empty rather than falling back to Realex-only chunks. -/
theorem selectContext_no_realex_only (P : PatternTests) (input : String)
    (results : List SearchResult) (h : P.realex input = false) :
    (∀ r ∈ selectContext P input results,
        r.mentionsRealex = false ∨ r.mentionsGlobalPayments = true) ∧
    (preferredCandidates (referencesRealex P input) (rankedCandidates P results) = [] →
      selectContext P input results = []) := by
  unfold selectContext referencesRealex
  rw [h]
  constructor
  · intro r hr
    unfold selectedCandidates at hr
    have hr' := List.mem_of_mem_take hr
    by_cases hp : 0 < (preferredCandidates false (rankedCandidates P results)).length
    · rw [if_pos hp] at hr'
      unfold preferredCandidates at hr'
      have hb := (List.mem_filter.mp hr').2
      simp only [Bool.false_or, Bool.or_eq_true, Bool.not_eq_true'] at hb
      rcases hb with hb | hb
      · exact Or.inl hb
      · exact Or.inr hb
    · rw [if_neg hp] at hr'
      simp at hr'
  · intro hpref
    unfold selectedCandidates
    rw [hpref]
    simp

/-- Witness for C9 at a concrete input and result list. -/
theorem selectContext_no_realex_only_witness :
    allFalseTests.realex ("What is a refund?") = false ∧
    (∀ r ∈ selectContext allFalseTests ("What is a refund?") [sampleResult],
        r.mentionsRealex = false ∨ r.mentionsGlobalPayments = true) :=
  ⟨rfl,
    (selectContext_no_realex_only allFalseTests ("What is a refund?") [sampleResult] rfl).1⟩

/-- Length of `slice(-4)` modelled by `drop`: at least two of the last four
remain exactly when the original count is at least two. -/
theorem count_last4_iff (n : Nat) : 2 ≤ n - (n - 4) ↔ 2 ≤ n := by
  omega

/-- C3: the primary reasoning effort is medium exactly when the trimmed
input is non-empty and matches the comparison pattern, or the multi-part
pattern, or is a short-or-follow-up-shaped input containing an ambiguous
pronoun while the history holds at least two user turns; in every other
case, including empty input, the primary effort is low. -/
theorem determineReasoningEffort_medium_iff (P : PatternTests) (input : String)
    (history : List ConversationMessage) :
    ((determineReasoningEffort P input history).primaryEffort = ReasoningEffort.medium ↔
      (jsTrim input ≠ ("") ∧
        (P.comparison (jsTrim input) = true ∨ P.multiPart (jsTrim input) = true ∨
          (((jsTrim input).length ≤ 40 ∨ P.followUp (jsTrim input) = true) ∧
            P.pronoun (jsTrim input) = true ∧
            2 ≤ (history.filter (fun m => decide (m.role = Role.user))).length)))) ∧
    ((determineReasoningEffort P input history).primaryEffort = ReasoningEffort.low ↔
      ¬ (jsTrim input ≠ ("") ∧
        (P.comparison (jsTrim input) = true ∨ P.multiPart (jsTrim input) = true ∨
          (((jsTrim input).length ≤ 40 ∨ P.followUp (jsTrim input) = true) ∧
            P.pronoun (jsTrim input) = true ∧
            2 ≤ (history.filter (fun m => decide (m.role = Role.user))).length)))) := by
  unfold determineReasoningEffort effortReasons
  by_cases ht : jsTrim input = ("")
  · simp [ht]
  · rw [if_neg ht]
    cases hc : P.comparison (jsTrim input) <;>
    cases hm : P.multiPart (jsTrim input) <;>
    cases hfu : P.followUp (jsTrim input) <;>
    cases hp : P.pronoun (jsTrim input) <;>
    by_cases hlen : (jsTrim input).length ≤ 40 <;>
    by_cases hcount :
      2 ≤ (history.filter (fun m => decide (m.role = Role.user))).length <;>
    simp [hc, hm, hfu, hp, hlen, ht, count_last4_iff, hcount]

/-- Sum of a cons. -/
theorem charSum_cons (m : ConversationMessage) (l : List ConversationMessage) :
    charSum (m :: l) = m.content.length + charSum l := by
  simp [charSum]

/-- Sum of an append. -/
theorem charSum_append (l1 l2 : List ConversationMessage) :
    charSum (l1 ++ l2) = charSum l1 + charSum l2 := by
  simp [charSum]

/-- Sum of a reverse. -/
theorem charSum_reverse (l : List ConversationMessage) :
    charSum l.reverse = charSum l := by
  simp [charSum, List.sum_reverse]

/-- Master characterisation of the backward selection loop: the loop takes
some prefix `t` of the reversed conversation; if it stopped before the end,
the very next message triggered the count or character guard; the selected
count never exceeds the message budget (beyond what was already selected);
and the first message taken passed the guard. -/
theorem selectBack_go (rev : List ConversationMessage) :
    ∀ sel chars, ∃ t : List ConversationMessage,
      t <+: rev ∧
      selectBack rev sel chars = (t.reverse ++ sel, chars + charSum t) ∧
      (t ≠ rev → ∃ m rest2, rev.drop t.length = m :: rest2 ∧
        (MAX_CONTEXT_MESSAGES ≤ t.length + sel.length ∨
          (0 < t.length + sel.length ∧
            MAX_CONTEXT_CHARS < chars + charSum t + m.content.length))) ∧
      sel.length + t.length ≤ max sel.length MAX_CONTEXT_MESSAGES ∧
      (∀ m t2, t = m :: t2 →
        ¬ (MAX_CONTEXT_MESSAGES ≤ sel.length ∨
            (0 < sel.length ∧ MAX_CONTEXT_CHARS < chars + m.content.length))) := by
  induction rev with
  | nil =>
    intro sel chars
    refine ⟨[], List.nil_prefix, ?_, fun hne => absurd rfl hne, ?_, ?_⟩
    · simp [selectBack, charSum]
    · simp
    · intro m t2 h
      exact List.noConfusion h
  | cons m rest ih =>
    intro sel chars
    by_cases hstop : MAX_CONTEXT_MESSAGES ≤ sel.length ∨
        (0 < sel.length ∧ MAX_CONTEXT_CHARS < chars + m.content.length)
    · refine ⟨[], List.nil_prefix, ?_, ?_, ?_, ?_⟩
      · simp [selectBack, hstop, charSum]
      · intro _
        refine ⟨m, rest, by simp, ?_⟩
        simpa [charSum] using hstop
      · simp
      · intro m2 t2 h
        exact List.noConfusion h
    · obtain ⟨t, htpre, heq, hstopc, hbound, hacc⟩ := ih (m :: sel) (chars + m.content.length)
      have hselLt : sel.length < MAX_CONTEXT_MESSAGES := by
        push_neg at hstop
        omega
      refine ⟨m :: t, ?_, ?_, ?_, ?_, ?_⟩
      · obtain ⟨r, hr⟩ := htpre
        exact ⟨r, by simp [← hr]⟩
      · simp only [selectBack]
        rw [if_neg hstop, heq, charSum_cons, List.reverse_cons, List.append_assoc]
        simp [Nat.add_assoc]
      · intro hne
        have htne : t ≠ rest := fun hteq => hne (by rw [hteq])
        obtain ⟨m2, rest2, hdrop, hdisj⟩ := hstopc htne
        refine ⟨m2, rest2, by simpa using hdrop, ?_⟩
        rw [charSum_cons]
        simp only [List.length_cons] at hdisj ⊢
        rcases hdisj with hd | hd
        · exact Or.inl (by omega)
        · exact Or.inr ⟨by omega, by omega⟩
      · simp only [List.length_cons] at hbound ⊢
        omega
      · intro m2 t2 h
        rw [show m2 = m from by injection h with h1 _; exact h1.symm]
        exact hstop

/-- Once at least one message is selected, the character total never grows
beyond the budget (beyond what was already accumulated). -/
theorem selectBack_chars_le (rev : List ConversationMessage) :
    ∀ sel chars, 0 < sel.length → chars ≤ MAX_CONTEXT_CHARS →
      (selectBack rev sel chars).2 ≤ MAX_CONTEXT_CHARS := by
  induction rev with
  | nil =>
    intro sel chars _ hchars
    simpa [selectBack] using hchars
  | cons m rest ih =>
    intro sel chars hsel hchars
    by_cases hstop : MAX_CONTEXT_MESSAGES ≤ sel.length ∨
        (0 < sel.length ∧ MAX_CONTEXT_CHARS < chars + m.content.length)
    · simpa [selectBack, hstop] using hchars
    · have hle : chars + m.content.length ≤ MAX_CONTEXT_CHARS := by
        push_neg at hstop
        exact hstop.2 hsel
      have := ih (m :: sel) (chars + m.content.length) (by simp) hle
      simpa [selectBack, hstop] using this

/-- When the latest message trims to something non-empty, the conversation
fed to the selection loop always ends with the trimmed latest user
message. -/
theorem buildConversation_getLast (history : List ConversationMessage) (latest : String)
    (h : jsTrim latest ≠ ("")) :
    (buildConversation history latest).getLast? =
      some { role := Role.user, content := jsTrim latest } := by
  unfold buildConversation
  cases hl : history.getLast? with
  | none =>
    simp [h, List.getLast?_concat]
  | some lastMessage =>
    by_cases hu : lastMessage.role = Role.user ∧ lastMessage.content = jsTrim latest
    · have hlm : lastMessage = { role := Role.user, content := jsTrim latest } := by
        cases lastMessage
        simp_all
      subst hlm
      simp [hl]
    · have hb : (decide (lastMessage.role = Role.user) &&
          decide (lastMessage.content = jsTrim latest)) = false := by
        cases hr : decide (lastMessage.role = Role.user) with
        | false => simp
        | true =>
          cases hc : decide (lastMessage.content = jsTrim latest) with
          | false => simp
          | true => exact absurd ⟨of_decide_eq_true hr, of_decide_eq_true hc⟩ hu
      simp [hb, h, List.getLast?_concat]

/-- C2: for a non-empty trimmed latest user message, `buildContextWindow`
returns a contiguous suffix of the conversation ending at the latest user
message, selected backwards greedily; it never exceeds twelve messages;
whenever an older message was left out, either the twelve-message budget
was reached or appending the next older message would push the character
total over eight thousand; from the second message on the character budget
is respected; and the truncated flag is set exactly when some older message
was left out. -/
theorem buildContextWindow_spec (history : List ConversationMessage) (latest : String)
    (h : jsTrim latest ≠ ("")) :
    (buildContextWindow history latest).messages <:+ buildConversation history latest ∧
    (buildContextWindow history latest).messages.getLast? =
      some { role := Role.user, content := jsTrim latest } ∧
    1 ≤ (buildContextWindow history latest).messages.length ∧
    (buildContextWindow history latest).messages.length ≤ MAX_CONTEXT_MESSAGES ∧
    (buildContextWindow history latest).totalChars =
      charSum (buildContextWindow history latest).messages ∧
    ((buildContextWindow history latest).messages.length <
        (buildConversation history latest).length →
      (buildContextWindow history latest).messages.length = MAX_CONTEXT_MESSAGES ∨
        ∃ m, (m :: (buildContextWindow history latest).messages) <:+
            buildConversation history latest ∧
          MAX_CONTEXT_CHARS <
            (buildContextWindow history latest).totalChars + m.content.length) ∧
    (2 ≤ (buildContextWindow history latest).messages.length →
      (buildContextWindow history latest).totalChars ≤ MAX_CONTEXT_CHARS) ∧
    ((buildContextWindow history latest).truncated = true ↔
      (buildContextWindow history latest).messages.length <
        (buildConversation history latest).length) := by
  have hlast := buildConversation_getLast history latest h
  have hne : buildConversation history latest ≠ [] := by
    intro hnil
    rw [hnil] at hlast
    simp at hlast
  obtain ⟨m1, rest, hrev⟩ :
      ∃ m1 rest, (buildConversation history latest).reverse = m1 :: rest := by
    cases hr : (buildConversation history latest).reverse with
    | nil =>
      exfalso
      apply hne
      simpa using congrArg List.reverse hr
    | cons a l => exact ⟨a, l, rfl⟩
  have hm1 : m1 = { role := Role.user, content := jsTrim latest } := by
    have hh := List.head?_reverse (buildConversation history latest)
    rw [hrev, hlast] at hh
    simpa using hh
  have hconvlen : (buildConversation history latest).length = rest.length + 1 := by
    have := congrArg List.length hrev
    simpa using this
  obtain ⟨t, htpre, heq, hstopc, hbound, hacc⟩ := selectBack_go rest [m1] m1.content.length
  have hfull : selectBack (buildConversation history latest).reverse [] 0 =
      (t.reverse ++ [m1], m1.content.length + charSum t) := by
    rw [hrev]
    simp only [selectBack]
    rw [if_neg (by simp [MAX_CONTEXT_MESSAGES])]
    simpa using heq
  have hcw : buildContextWindow history latest =
      { messages := t.reverse ++ [m1],
        totalMessages := (buildConversation history latest).length,
        totalChars := m1.content.length + charSum t,
        truncated :=
          decide ((t.reverse ++ [m1]).length <
            (buildConversation history latest).length) } := by
    unfold buildContextWindow
    simp only [hfull]
    rw [if_neg (by simp)]
  rw [hcw]
  simp only [List.length_append, List.length_reverse, List.length_singleton]
  refine ⟨?_, ?_, ?_, ?_, ?_, ?_, ?_, ?_⟩
  · obtain ⟨r, hr⟩ := htpre
    refine ⟨r.reverse, ?_⟩
    have : buildConversation history latest = (m1 :: (t ++ r)).reverse.reverse.reverse := by
      rw [← hr] at hrev
      rw [← hrev]
      simp
    calc r.reverse ++ (t.reverse ++ [m1])
        = (m1 :: (t ++ r)).reverse := by
          simp [List.reverse_append]
      _ = buildConversation history latest := by
          rw [← hr] at hrev
          rw [← hrev]
          simp
  · rw [List.getLast?_concat, hm1]
  · omega
  · simp only [List.length_singleton, MAX_CONTEXT_MESSAGES] at hbound ⊢
    omega
  · rw [charSum_append, charSum_reverse, charSum_cons]
    simp [charSum]
    omega
  · intro hlt
    rw [hconvlen] at hlt
    have htne : t ≠ rest := by
      intro he
      rw [he] at hlt
      omega
    obtain ⟨m2, rest2, hdrop, hdisj⟩ := hstopc htne
    simp only [List.length_singleton] at hdisj
    rcases hdisj with hd | hd
    · left
      simp only [MAX_CONTEXT_MESSAGES] at hd hbound ⊢
      simp only [List.length_singleton] at hbound
      omega
    · right
      refine ⟨m2, ?_, ?_⟩
      · have htake : rest.take t.length = t := (List.prefix_iff_eq_take.mp htpre).symm
        have hrest : t ++ (m2 :: rest2) = rest := by
          have hsplit := List.take_append_drop t.length rest
          rw [hdrop, htake] at hsplit
          exact hsplit
        refine ⟨rest2.reverse, ?_⟩
        calc rest2.reverse ++ (m2 :: (t.reverse ++ [m1]))
            = (m1 :: (t ++ (m2 :: rest2))).reverse := by
              simp [List.reverse_append]
          _ = buildConversation history latest := by
              rw [hrest, ← hrev]
              simp
      · omega
  · intro h2
    cases t with
    | nil => simp at h2
    | cons m2 t2 =>
      have hfirst := hacc m2 t2 rfl
      push_neg at hfirst
      have hm1le : m1.content.length ≤ MAX_CONTEXT_CHARS := by
        have := hfirst.2 (by simp)
        omega
      have hchars := selectBack_chars_le rest [m1] m1.content.length (by simp) hm1le
      rw [heq] at hchars
      simpa using hchars
  · simp

/-- Witness for C2 at a concrete history and latest message. -/
theorem buildContextWindow_spec_witness :
    jsTrim ("b") ≠ ("") ∧
    (buildContextWindow [{ role := Role.user, content := ("a") }] ("b")).messages.getLast? =
      some { role := Role.user, content := jsTrim ("b") } ∧
    ((buildContextWindow [{ role := Role.user, content := ("a") }] ("b")).truncated = true ↔
      (buildContextWindow [{ role := Role.user, content := ("a") }] ("b")).messages.length <
        (buildConversation [{ role := Role.user, content := ("a") }] ("b")).length) :=
  ⟨by decide,
    (buildContextWindow_spec [{ role := Role.user, content := ("a") }] ("b") (by decide)).2.1,
    (buildContextWindow_spec [{ role := Role.user, content := ("a") }] ("b")
      (by decide)).2.2.2.2.2.2.2⟩

/-- The effort decision takes exactly one of two shapes: low primary effort
with a medium retry, or medium primary effort with no retry. -/
theorem retryEfforts_cases (P : PatternTests) (input : String)
    (history : List ConversationMessage) :
    ((determineReasoningEffort P input history).primaryEffort = ReasoningEffort.low ∧
      (determineReasoningEffort P input history).retryEfforts =
        [ReasoningEffort.low, ReasoningEffort.medium]) ∨
    ((determineReasoningEffort P input history).primaryEffort = ReasoningEffort.medium ∧
      (determineReasoningEffort P input history).retryEfforts = [ReasoningEffort.medium]) := by
  unfold determineReasoningEffort
  by_cases ht : jsTrim input = ("")
  · left
    simp [ht]
  · rw [if_neg ht]
    by_cases hr : 0 < (effortReasons P (jsTrim input) history).length
    · right
      simp [hr]
    · left
      simp [hr]

/-- C6: with low primary effort the retry list is low-then-medium, and a
first attempt that throws or whose boundary-enforced text is the no-match
message is retried exactly once at medium effort (whose own outcome,
success or propagated error, is final); a clean first attempt ends after
one call; with medium primary effort the retry list is just medium, exactly
one call is made, and a thrown error propagates. -/
theorem retry_escalation_policy {E : Type} (oracle : Nat → Except E String)
    (P : PatternTests) (input : String) (history : List ConversationMessage) :
    ((determineReasoningEffort P input history).primaryEffort = ReasoningEffort.low →
      (determineReasoningEffort P input history).retryEfforts =
        [ReasoningEffort.low, ReasoningEffort.medium]) ∧
    ((determineReasoningEffort P input history).primaryEffort = ReasoningEffort.medium →
      (determineReasoningEffort P input history).retryEfforts = [ReasoningEffort.medium]) ∧
    (∀ e, oracle 0 = Except.error e →
      runAttempts [ReasoningEffort.low, ReasoningEffort.medium] oracle true =
        (mediumRetryOutcome oracle, 2)) ∧
    (∀ raw, oracle 0 = Except.ok raw →
      enforceDocsOnlyBoundary raw = DOCS_ONLY_NO_MATCH_MESSAGE →
      runAttempts [ReasoningEffort.low, ReasoningEffort.medium] oracle true =
        (mediumRetryOutcome oracle, 2)) ∧
    (∀ raw, oracle 0 = Except.ok raw →
      enforceDocsOnlyBoundary raw ≠ DOCS_ONLY_NO_MATCH_MESSAGE →
      runAttempts [ReasoningEffort.low, ReasoningEffort.medium] oracle true =
        (GenOutcome.success (enforceDocsOnlyBoundary raw) ReasoningEffort.low, 1)) ∧
    ((runAttempts [ReasoningEffort.medium] oracle true).2 = 1) ∧
    (∀ e, oracle 0 = Except.error e →
      runAttempts [ReasoningEffort.medium] oracle true =
        (GenOutcome.failure (some e), 1)) := by
  refine ⟨?_, ?_, ?_, ?_, ?_, ?_, ?_⟩
  · intro hp
    rcases retryEfforts_cases P input history with ⟨_, hr⟩ | ⟨hm, _⟩
    · exact hr
    · rw [hp] at hm
      exact absurd hm (by simp)
  · intro hp
    rcases retryEfforts_cases P input history with ⟨hm, _⟩ | ⟨_, hr⟩
    · rw [hp] at hm
      exact absurd hm (by simp)
    · exact hr
  · intro e he
    unfold runAttempts mediumRetryOutcome
    cases ho1 : oracle 1 with
    | ok raw => simp [runAttemptsAux, he, ho1]
    | error e2 => simp [runAttemptsAux, he, ho1]
  · intro raw ho hmatch
    unfold runAttempts mediumRetryOutcome
    cases ho1 : oracle 1 with
    | ok raw2 => simp [runAttemptsAux, ho, ho1, hmatch]
    | error e2 => simp [runAttemptsAux, ho, ho1, hmatch]
  · intro raw ho hne
    unfold runAttempts
    simp [runAttemptsAux, ho, hne]
  · cases ho : oracle 0 with
    | ok raw => simp [runAttempts, runAttemptsAux, ho]
    | error e => simp [runAttempts, runAttemptsAux, ho]
  · intro e he
    simp [runAttempts, runAttemptsAux, he]

/-- Witness for C6: a first low-effort attempt that throws is retried once
at medium effort. -/
theorem retry_escalation_policy_witness :
    (fun n => if n = 0 then (Except.error ("boom") : Except String String)
      else Except.ok ("Hi")) 0 = Except.error ("boom") ∧
    runAttempts [ReasoningEffort.low, ReasoningEffort.medium]
      (fun n => if n = 0 then (Except.error ("boom") : Except String String)
        else Except.ok ("Hi")) true =
      (mediumRetryOutcome
        (fun n => if n = 0 then (Except.error ("boom") : Except String String)
          else Except.ok ("Hi")), 2) :=
  ⟨rfl,
    (retry_escalation_policy
      (fun n => if n = 0 then (Except.error ("boom") : Except String String)
        else Except.ok ("Hi")) allFalseTests ("x") []).2.2.1 ("boom") rfl⟩

/-- C10: when no search result survives selection, the agent returns before
any generation call; the response is the fixed unavailable message exactly
for a "VectorSearchError" search error and the fixed no-match message in
every other case (including no error), with an empty context list in the
metadata. -/
theorem agent_no_context_early_return (P : PatternTests) {E : Type} (input : String)
    (history : List ConversationMessage) (resp : DocumentationSearchResponse)
    (oracle : Nat → Except E String)
    (h : selectContext P input resp.results = []) :
    runAgentModel P input history resp oracle =
      ({ response :=
          match resp.error with
          | some err =>
              if err.type = ("VectorSearchError") then DOCS_ONLY_UNAVAILABLE_MESSAGE
              else DOCS_ONLY_NO_MATCH_MESSAGE
          | none => DOCS_ONLY_NO_MATCH_MESSAGE,
         contextMeta := [], isError := false }, 0) := by
  unfold runAgentModel highConfidenceResults
  simp [h]

/-- Witness for C10 at a concrete vector-search failure. -/
theorem agent_no_context_early_return_witness :
    selectContext allFalseTests ("x") [] = [] ∧
    runAgentModel allFalseTests ("x") []
      { results := [],
        error := some { type := ("VectorSearchError"), message := ("down") } }
      (fun _ => (Except.ok ("") : Except Unit String)) =
      ({ response := DOCS_ONLY_UNAVAILABLE_MESSAGE, contextMeta := [],
         isError := false }, 0) := by
  refine ⟨by decide, ?_⟩
  have h := agent_no_context_early_return allFalseTests ("x") []
    { results := [],
      error := some { type := ("VectorSearchError"), message := ("down") } }
    (fun _ => (Except.ok ("") : Except Unit String)) (by decide)
  simpa using h

/-- Deleting a key removes it from lookup. -/
theorem lookup_cacheDelete (cache : List (String × CacheEntry)) (key : String) :
    List.lookup key (cacheDelete cache key) = none := by
  induction cache with
  | nil => simp [cacheDelete]
  | cons kv rest ih =>
    unfold cacheDelete at ih ⊢
    cases hk : kv.1 == key with
    | true => simp [List.filter_cons, hk, ih]
    | false =>
      have hne : (key == kv.1) = false := by
        have h1 : ¬ kv.1 = key := by simpa using hk
        simpa using fun he => h1 he.symm
      simp [List.filter_cons, hk, List.lookup, hne, ih]

/-- C7: the cache-check step serves a stored entry only when its timestamp
is within the one-hour TTL of the lookup time (so no expired entry is ever
served), and a lookup that finds an entry at or past the TTL removes that
entry and falls through to recomputation. -/
theorem cache_ttl_spec (cache : List (String × CacheEntry)) (key : String) (now : Int) :
    (∀ entry, (cacheLookupStep cache key now).1 = CacheDecision.serveCached entry →
      List.lookup key cache = some entry ∧ now - entry.timestamp < CACHE_TTL) ∧
    (∀ entry, List.lookup key cache = some entry →
      ¬ (now - entry.timestamp < CACHE_TTL) →
      cacheLookupStep cache key now = (CacheDecision.recompute, cacheDelete cache key) ∧
        List.lookup key (cacheDelete cache key) = none) := by
  constructor
  · intro entry hserve
    unfold cacheLookupStep at hserve
    cases hl : List.lookup key cache with
    | none =>
      rw [hl] at hserve
      simp at hserve
    | some cachedData =>
      rw [hl] at hserve
      dsimp only at hserve
      by_cases hf : now - cachedData.timestamp < CACHE_TTL
      · rw [if_pos hf] at hserve
        simp only [CacheDecision.serveCached.injEq] at hserve
        rw [← hserve]
        exact ⟨rfl, hf⟩
      · rw [if_neg hf] at hserve
        simp at hserve
  · intro entry hl hstale
    unfold cacheLookupStep
    rw [hl]
    dsimp only
    rw [if_neg hstale]
    exact ⟨rfl, lookup_cacheDelete cache key⟩

/-- Witness for C7: an entry exactly one TTL old is not served; it is
deleted and the response recomputed. -/
theorem cache_ttl_spec_witness :
    List.lookup ("k") [(("k"), ({ response := ("r"), timestamp := 0 } : CacheEntry))] =
      some { response := ("r"), timestamp := 0 } ∧
    ¬ ((3600000 : Int) - ({ response := ("r"), timestamp := 0 } : CacheEntry).timestamp <
        CACHE_TTL) ∧
    cacheLookupStep [(("k"), { response := ("r"), timestamp := 0 })] ("k") 3600000 =
      (CacheDecision.recompute,
        cacheDelete [(("k"), { response := ("r"), timestamp := 0 })] ("k")) :=
  ⟨by decide, by decide,
    ((cache_ttl_spec [(("k"), { response := ("r"), timestamp := 0 })] ("k") 3600000).2
      { response := ("r"), timestamp := 0 } (by decide) (by decide)).1⟩

/-- The low-primary attempt loop makes one or two generation calls. -/
theorem runAttempts_calls_low {E : Type} (oracle : Nat → Except E String) (b : Bool) :
    1 ≤ (runAttempts [ReasoningEffort.low, ReasoningEffort.medium] oracle b).2 ∧
    (runAttempts [ReasoningEffort.low, ReasoningEffort.medium] oracle b).2 ≤ 2 := by
  unfold runAttempts
  cases h0 : oracle 0 with
  | ok raw =>
    simp only [runAttemptsAux, h0]
    split
    · cases h1 : oracle 1 <;> simp [runAttemptsAux, h1]
    · simp
  | error e =>
    simp only [runAttemptsAux, h0]
    split
    · cases h1 : oracle 1 <;> simp [runAttemptsAux, h1]
    · simp

/-- The medium-primary attempt loop makes exactly one generation call. -/
theorem runAttempts_calls_medium {E : Type} (oracle : Nat → Except E String) (b : Bool) :
    (runAttempts [ReasoningEffort.medium] oracle b).2 = 1 := by
  unfold runAttempts
  cases h0 : oracle 0 with
  | ok raw => simp [runAttemptsAux, h0]
  | error e => simp [runAttemptsAux, h0]

/-- Generation-call count of the agent: zero when nothing survives
selection, otherwise the attempt-loop count, which is one or two. -/
theorem runAgentModel_calls (P : PatternTests) {E : Type} (input : String)
    (history : List ConversationMessage) (resp : DocumentationSearchResponse)
    (oracle : Nat → Except E String) :
    (selectContext P input resp.results = [] ∧
      (runAgentModel P input history resp oracle).2 = 0) ∨
    (selectContext P input resp.results ≠ [] ∧
      1 ≤ (runAgentModel P input history resp oracle).2 ∧
      (runAgentModel P input history resp oracle).2 ≤ 2) := by
  by_cases hsel : selectContext P input resp.results = []
  · left
    refine ⟨hsel, ?_⟩
    unfold runAgentModel highConfidenceResults
    simp [hsel]
  · right
    refine ⟨hsel, ?_⟩
    unfold runAgentModel
    have hlen : ¬ (highConfidenceResults P input resp.results).length = 0 := by
      simpa [highConfidenceResults] using hsel
    simp only [if_neg hlen]
    rcases retryEfforts_cases P input history with ⟨_, hr⟩ | ⟨_, hr⟩ <;> rw [hr]
    · have hb := runAttempts_calls_low oracle
        (decide (0 < (highConfidenceResults P input resp.results).length))
      cases hrun : (runAttempts [ReasoningEffort.low, ReasoningEffort.medium] oracle
          (decide (0 < (highConfidenceResults P input resp.results).length))).1 <;>
        simp [hrun] <;> exact hb
    · have hb := runAttempts_calls_medium oracle
        (decide (0 < (highConfidenceResults P input resp.results).length))
      cases hrun : (runAttempts [ReasoningEffort.medium] oracle
          (decide (0 < (highConfidenceResults P input resp.results).length))).1 <;>
        simp [hrun] <;> omega

/-- Counterexample for C8: a non-cached request whose search yields one
surviving result and whose single generation attempt succeeds issues two
outbound provider calls (one retrieval, one generation), not one. -/
theorem outbound_calls_not_one :
    requestOutboundCalls allFalseTests false ("What is a refund?") []
      { results := [sampleResult], error := none }
      (fun _ => (Except.ok ("Refunds reverse a payment.") : Except Unit String)) = 2 ∧
    requestOutboundCalls allFalseTests false ("What is a refund?") []
      { results := [sampleResult], error := none }
      (fun _ => (Except.ok ("Refunds reverse a payment.") : Except Unit String)) ≠ 1 := by
  refine ⟨by decide, by decide⟩

/-- C8 (amended): a cache-served request issues no outbound call; a
non-cached request issues one retrieval call plus the generation attempts,
for a total between one and three, and the total is exactly one precisely
when no search result survives selection (so no generation call is
made). -/
theorem requestOutboundCalls_spec (P : PatternTests) {E : Type} (input : String)
    (history : List ConversationMessage) (resp : DocumentationSearchResponse)
    (oracle : Nat → Except E String) :
    requestOutboundCalls P true input history resp oracle = 0 ∧
    1 ≤ requestOutboundCalls P false input history resp oracle ∧
    requestOutboundCalls P false input history resp oracle ≤ 3 ∧
    (requestOutboundCalls P false input history resp oracle = 1 ↔
      selectContext P input resp.results = []) := by
  have key := runAgentModel_calls P input history resp oracle
  have hfalse : requestOutboundCalls P false input history resp oracle =
      1 + (runAgentModel P input history resp oracle).2 := rfl
  rcases key with ⟨hs, h0⟩ | ⟨hs, h1, h2⟩
  · refine ⟨rfl, by rw [hfalse]; omega, by rw [hfalse]; omega, ?_⟩
    constructor
    · intro _
      exact hs
    · intro _
      rw [hfalse]
      omega
  · refine ⟨rfl, by rw [hfalse]; omega, by rw [hfalse]; omega, ?_⟩
    constructor
    · intro hc
      rw [hfalse] at hc
      omega
    · intro hc
      exact absurd hc hs

end DocsBot
